import Mathlib

/-!
Shallow embedding of the engagement scheduler of the `instagram-commenter`
repository (src/src/Bot.ts, final variant unless noted otherwise).

Modelling conventions:
* JavaScript numbers are modelled as exact rationals (`ℚ`) where fractional
  arithmetic occurs (`Math.random`, the rate-limit multiplier) and as `ℤ`/`ℕ`
  where the code only manipulates integer quantities (timestamps, millisecond
  delays produced by `rand`, which floors its jitter).
* `Math.random()` is modelled by an explicit parameter `r : ℚ` with
  `0 ≤ r < 1` where a theorem needs that range.
* The in-place `Array.prototype.sort` with comparator
  `(a, b) => b.takenAt - a.takenAt` is stable by the ECMAScript specification;
  any stable sort with this comparator produces the same list, so it is
  modelled by a stable insertion sort in descending `takenAt` order.
* `undefined` results of out-of-range array indexing are modelled by `Option`.
-/

/-- A timeline media item as used by the final bot variant: `id` (string),
`takenAt` (capture timestamp), `liked` (already-engaged flag), `adId`
(sponsored-content marker, absent on organic posts). -/
structure Media where
  id : String
  takenAt : Nat
  liked : Bool
  adId : Option String
deriving DecidableEq, Repr

/-- JavaScript truthiness of the optional `adId` field: `undefined` and the
empty string are falsy, every other string is truthy. -/
def Media.isAd (m : Media) : Bool :=
  match m.adId with
  | none => false
  | some s => !s.isEmpty

/-- `Bot.queueItem` (final variant, Bot.ts lines 637-642): skip when the queue
already holds an item with the same id, when the item is already liked, or when
its `adId` is truthy; otherwise push onto the end of the queue array. -/
def queueItem (q : List Media) (item : Media) : List Media :=
  if q.any (fun i => decide (i.id = item.id)) then q
  else if item.liked then q
  else if item.isAd then q
  else q ++ [item]

/-- `Array.prototype.findIndex`, specialised to `Media` lists: index of the
first element satisfying the predicate, or none (`-1` in JavaScript). -/
def findIndex (p : Media → Bool) : List Media → Option Nat
  | [] => none
  | x :: xs => if p x then some 0 else (findIndex p xs).map (· + 1)

/-- `Bot.unqueueItem` (Bot.ts lines 653-656) applied to a `Media` argument:
`findIndex(i => i === item || i.id === item)` followed by `splice(index, 1)`.
For a `Media` argument the second disjunct compares a string with an object and
is always false, so the predicate is reference equality with `item`, modelled
as structural equality. -/
def unqueueItem (q : List Media) (item : Media) : List Media :=
  match findIndex (fun i => decide (i = item)) q with
  | none => q
  | some idx => q.eraseIdx idx

/-- Stable insertion of `x` into a descending-`takenAt` list: `x` goes before
the first element it compares greater-or-equal to, so among equal timestamps
earlier-positioned elements stay first. -/
def insertByTakenAt (x : Media) : List Media → List Media
  | [] => [x]
  | y :: ys => if y.takenAt ≤ x.takenAt then x :: y :: ys else y :: insertByTakenAt x ys

/-- The in-place `this.queue.sort((a, b) => b.takenAt - a.takenAt)` of
`Bot.processQueue` (Bot.ts line 666): a stable sort into descending `takenAt`
order, modelled by stable insertion sort (see file header). -/
def sortDesc : List Media → List Media
  | [] => []
  | x :: xs => insertByTakenAt x (sortDesc xs)

/-- The selection-and-removal step of `Bot.processQueue` (Bot.ts lines
665-683): sort the queue in place (descending `takenAt`), take `sorted[0]`;
when absent report empty, otherwise `unqueueItem` it from the (sorted, because
sorted in place) queue. Returns the dequeued item (if any) and the queue state
afterwards. -/
def dequeueNext (q : List Media) : Option Media × List Media :=
  match sortDesc q with
  | [] => (none, [])
  | item :: rest => (some item, unqueueItem (item :: rest) item)

/-- Specification-side characterisation of `dequeueNext`'s selection rule,
written from the spec's words: the item with the greatest timestamp, ties
broken in favour of the first-inserted (earlier-positioned) item. -/
def specFirstMax : List Media → Option Media
  | [] => none
  | x :: xs =>
    match specFirstMax xs with
    | none => some x
    | some m => if x.takenAt < m.takenAt then some m else some x

/-- Constant `RATELIMIT_TIMEOUT` (Bot.ts line 356): the base cooldown,
`1000 * 60 * 30` milliseconds. -/
def RATELIMIT_TIMEOUT : ℚ := 1000 * 60 * 30

/-- Constant `RATELIMIT_MULT` (Bot.ts line 357): the cooldown growth factor. -/
def RATELIMIT_MULT : ℚ := 1.5

/-- Constant `MIN_LIKE_TIMEOUT` (Bot.ts line 351), seconds. -/
def MIN_LIKE_TIMEOUT : ℤ := 10

/-- Constant `MAX_LIKE_TIMEOUT` (Bot.ts line 352), seconds. -/
def MAX_LIKE_TIMEOUT : ℤ := 30

/-- `Bot.ratelimit` (Bot.ts lines 728-733) acting on the `ratelimitTimeout`
field: returns the duration waited (the current field value, when no explicit
`ms` is passed, as at both call sites) paired with the updated field
`ratelimitTimeout * RATELIMIT_MULT`. -/
def ratelimit (s : ℚ) : ℚ × ℚ := (s, s * RATELIMIT_MULT)

/-- The `ratelimitTimeout` field after `n` consecutive `ratelimit` calls
starting from field value `b`, with no intervening reset. -/
def triggerN (n : ℕ) (b : ℚ) : ℚ := (fun s => (ratelimit s).2)^[n] b

/-- `Bot.resetRatelimit` (Bot.ts lines 742-744): unconditionally restores the
`ratelimitTimeout` field to the base constant. -/
def resetRatelimit : ℚ → ℚ := fun _ => RATELIMIT_TIMEOUT

/-- `rand` (Bot.ts lines 411-413): `from + Math.floor(Math.random() * (to -
from))`, with `Math.random()` as the explicit parameter `r`. Source parameter
names `from`/`to` are Lean keywords, hence `a`/`b`. -/
def rand (a b : ℤ) (r : ℚ) : ℤ := a + ⌊r * ((b : ℚ) - (a : ℚ))⌋

/-- JavaScript `v || d` for an optional numeric config field, as in
`this.config.minLikeTimeout || MIN_LIKE_TIMEOUT`: an absent field and the
falsy value `0` both fall back to the default. -/
def orDefault (v : Option ℤ) (d : ℤ) : ℤ :=
  match v with
  | none => d
  | some n => if n = 0 then d else n

/-- The post-like delay drawn by `Bot.likeMedia` (Bot.ts lines 590-603):
`rand((config.minLikeTimeout || MIN_LIKE_TIMEOUT) * 1000,
(config.maxLikeTimeout || MAX_LIKE_TIMEOUT) * 1000)`, in milliseconds. -/
def likeTimeout (minT maxT : Option ℤ) (r : ℚ) : ℤ :=
  rand (orDefault minT MIN_LIKE_TIMEOUT * 1000) (orDefault maxT MAX_LIKE_TIMEOUT * 1000) r

/-- `Bot.randomComment` (Bot.ts lines 692-694):
`comments[Math.floor(Math.random() * comments.length)]`, with out-of-range
indexing (`undefined`) modelled as `none`. -/
def randomComment (comments : List String) (r : ℚ) : Option String :=
  comments.get? (⌊r * (comments.length : ℚ)⌋).toNat

/-- A JavaScript value, as far as `validateBotConfig`'s `typeof`-style checks
can distinguish one: string, number, boolean, array, `null`, `undefined`.
No modelled check inspects the elements of an array (only `Array.isArray` is
applied, and every array is truthy), so `arr` records only the length. -/
inductive JSVal where
  | str (s : String)
  | num (n : ℚ)
  | bool (b : Bool)
  | arr (length : Nat)
  | nullV
  | undef
deriving DecidableEq, Repr

/-- JavaScript truthiness of a `JSVal`. -/
def truthy : JSVal → Bool
  | .str s => !s.isEmpty
  | .num n => decide (n ≠ 0)
  | .bool b => b
  | .arr _ => true
  | .nullV => false
  | .undef => false

/-- `typeof v === 'string'`. -/
def JSVal.isString : JSVal → Bool
  | .str _ => true
  | _ => false

/-- `Array.isArray(v)`. -/
def JSVal.isArray : JSVal → Bool
  | .arr _ => true
  | _ => false

/-- A bot configuration object with the fields `validateBotConfig` inspects,
each an arbitrary JavaScript value; an omitted optional field is `undef`. -/
structure BotConfigJS where
  username : JSVal
  password : JSVal
  comments : JSVal
  whitelist : JSVal
  blacklist : JSVal
deriving DecidableEq, Repr

/-- `validateBotConfig` of the final variant (Bot.ts lines 382-390). The
leading `typeof config !== 'object' || config === null || !config` check
always passes here because the argument is a genuine object by construction.
A thrown `TypeError` is modelled as `Except.error` carrying its message. -/
def validateBotConfig (c : BotConfigJS) : Except String BotConfigJS :=
  if !c.username.isString || !(truthy c.username) then
    Except.error "Username must be a string"
  else if !c.password.isString || !(truthy c.password) then
    Except.error "Password must be a string"
  else if !c.comments.isArray then
    Except.error "Comments must be an array of strings"
  else if !c.whitelist.isArray && truthy c.whitelist then
    Except.error "Whitelist must be an array of strings"
  else if !c.blacklist.isArray && truthy c.blacklist then
    Except.error "Blacklist must be an array of strings"
  else
    Except.ok c

/-- `validateBotConfig` of the draft variants (Bot.ts lines 22-30 and the
unnamed draft source, lines 21-29): identical except that the username and
password checks use `&&` instead of `||`, rejecting a value only when it is
both a non-string and falsy. -/
def validateBotConfigV1 (c : BotConfigJS) : Except String BotConfigJS :=
  if !c.username.isString && !(truthy c.username) then
    Except.error "Username must be a string"
  else if !c.password.isString && !(truthy c.password) then
    Except.error "Password must be a string"
  else if !c.comments.isArray then
    Except.error "Comments must be an array of strings"
  else if !c.whitelist.isArray && truthy c.whitelist then
    Except.error "Whitelist must be an array of strings"
  else if !c.blacklist.isArray && truthy c.blacklist then
    Except.error "Blacklist must be an array of strings"
  else
    Except.ok c

/-- Whether a validation outcome is a thrown error. -/
def isError (e : Except String BotConfigJS) : Bool :=
  match e with
  | .error _ => true
  | .ok _ => false

/-- Concrete items for the spec's dequeue-order scenario. -/
def itemA : Media := ⟨"A", 100, false, none⟩

/-- Second scenario item, the most recent one. -/
def itemB : Media := ⟨"B", 300, false, none⟩

/-- Third scenario item. -/
def itemC : Media := ⟨"C", 200, false, none⟩

/-- The queue after enqueueing `itemA`, `itemB`, `itemC` in that order. -/
def qABC : List Media := [itemA, itemB, itemC]

/-- A different item carrying the identifier already used by `itemA`. -/
def itemAdup : Media := ⟨"A", 999, false, none⟩

/-- Feed-filter scenario item X: already liked. -/
def itemX : Media := ⟨"X", 10, true, none⟩

/-- Feed-filter scenario item Y: not liked, sponsored (truthy `adId`). -/
def itemY : Media := ⟨"Y", 20, false, some "ad1"⟩

/-- Feed-filter scenario item Z: not liked, not sponsored. -/
def itemZ : Media := ⟨"Z", 30, false, none⟩

/-- A configuration whose `comments` field is an empty array and whose other
fields are valid. -/
def cfgEmptyComments : BotConfigJS :=
  ⟨.str "user", .str "hunter2", .arr 0, .undef, .undef⟩

/-- A configuration whose `username` is the number `1` (truthy, not a string)
and whose other fields are valid. -/
def cfgNumUser : BotConfigJS :=
  ⟨.num 1, .str "hunter2", .arr 0, .undef, .undef⟩

lemma insertByTakenAt_perm (x : Media) (l : List Media) :
    List.Perm (insertByTakenAt x l) (x :: l) := by
  induction l with
  | nil => exact List.Perm.refl _
  | cons y ys ih =>
    by_cases h : y.takenAt ≤ x.takenAt
    · simp [insertByTakenAt, h]
    · simp only [insertByTakenAt, h, if_false]
      exact (ih.cons y).trans (List.Perm.swap x y ys)

lemma sortDesc_perm (l : List Media) : List.Perm (sortDesc l) l := by
  induction l with
  | nil => exact List.Perm.refl _
  | cons x xs ih => exact (insertByTakenAt_perm x (sortDesc xs)).trans (ih.cons x)

lemma sortDesc_eq_nil_iff (l : List Media) : sortDesc l = [] ↔ l = [] := by
  constructor
  · intro h
    have := sortDesc_perm l
    rw [h] at this
    exact (List.Perm.nil_eq this).symm
  · intro h; subst h; rfl

lemma insertByTakenAt_head_cons (x y : Media) (ys : List Media) :
    (insertByTakenAt x (y :: ys)).head? =
      if y.takenAt ≤ x.takenAt then some x else some y := by
  by_cases h : y.takenAt ≤ x.takenAt <;> simp [insertByTakenAt, h]

lemma sortDesc_head (q : List Media) : (sortDesc q).head? = specFirstMax q := by
  induction q with
  | nil => rfl
  | cons x xs ih =>
    cases h : sortDesc xs with
    | nil =>
      have hx : specFirstMax xs = none := by rw [← ih, h]; rfl
      simp [sortDesc, h, insertByTakenAt, specFirstMax, hx]
    | cons y ys =>
      have hy : specFirstMax xs = some y := by rw [← ih, h]; rfl
      simp only [sortDesc, h, insertByTakenAt_head_cons, specFirstMax, hy]
      by_cases hc : y.takenAt ≤ x.takenAt
      · simp [hc, Nat.not_lt.mpr hc]
      · simp [hc, Nat.lt_of_not_le hc]

lemma specFirstMax_eq_none_iff (l : List Media) : specFirstMax l = none ↔ l = [] := by
  cases l with
  | nil => simp [specFirstMax]
  | cons x xs =>
    simp only [specFirstMax]
    cases h : specFirstMax xs <;> simp [h]
    split <;> simp

lemma specFirstMax_mem_le (q : List Media) (m : Media) (h : specFirstMax q = some m) :
    m ∈ q ∧ ∀ x ∈ q, x.takenAt ≤ m.takenAt := by
  induction q generalizing m with
  | nil => cases h
  | cons a as ih =>
    cases hs : specFirstMax as with
    | none =>
      have : as = [] := (specFirstMax_eq_none_iff as).mp hs
      subst this
      simp only [specFirstMax] at h
      cases h
      simp
    | some y =>
      obtain ⟨hmem, hle⟩ := ih y hs
      simp only [specFirstMax, hs] at h
      by_cases hc : a.takenAt < y.takenAt
      · rw [if_pos hc] at h
        cases h
        exact ⟨List.mem_cons_of_mem a hmem,
          by
            intro x hx
            rcases List.mem_cons.mp hx with hx | hx
            · subst hx; exact Nat.le_of_lt hc
            · exact hle x hx⟩
      · rw [if_neg hc] at h
        cases h
        exact ⟨List.mem_cons_self a as,
          by
            intro x hx
            rcases List.mem_cons.mp hx with hx | hx
            · subst hx; exact Nat.le_refl _
            · exact Nat.le_trans (hle x hx) (Nat.le_of_not_lt hc)⟩

lemma unqueueItem_cons_self (x : Media) (t : List Media) :
    unqueueItem (x :: t) x = t := by
  simp [unqueueItem, findIndex]

lemma dequeueNext_fst (q : List Media) : (dequeueNext q).1 = (sortDesc q).head? := by
  cases h : sortDesc q <;> simp [dequeueNext, h]

lemma dequeueNext_of_sortDesc (q : List Media) (m : Media) (t : List Media)
    (h : sortDesc q = m :: t) : dequeueNext q = (some m, t) := by
  simp [dequeueNext, h, unqueueItem_cons_self]

lemma queueItem_cases (q : List Media) (i : Media) :
    queueItem q i = q ∨ queueItem q i = q ++ [i] := by
  unfold queueItem
  split
  · exact Or.inl rfl
  · split
    · exact Or.inl rfl
    · split
      · exact Or.inl rfl
      · exact Or.inr rfl

lemma queueItem_nodup_ids (q : List Media) (i : Media)
    (h : (q.map Media.id).Nodup) : ((queueItem q i).map Media.id).Nodup := by
  unfold queueItem
  split
  · exact h
  · split
    · exact h
    · split
      · exact h
      · rename_i hdup _ _
        have hni : i.id ∉ q.map Media.id := by
          intro hmem
          obtain ⟨j, hj, hje⟩ := List.mem_map.mp hmem
          exact hdup (List.any_eq_true.mpr ⟨j, hj, by simp [hje]⟩)
        have hperm : List.Perm ((q ++ [i]).map Media.id) (i.id :: q.map Media.id) := by
          simp only [List.map_append, List.map_cons, List.map_nil]
          exact List.perm_append_singleton _ _
        exact hperm.nodup_iff.mpr (List.nodup_cons.mpr ⟨hni, h⟩)

lemma enqueueAll_nodup_ids (items : List Media) :
    ∀ q : List Media, (q.map Media.id).Nodup →
      (((items.foldl queueItem q)).map Media.id).Nodup := by
  induction items with
  | nil => intro q h; exact h
  | cons i is ih =>
    intro q h
    exact ih (queueItem q i) (queueItem_nodup_ids q i h)

/-- C1: `dequeueNext` (the selection step of `processQueue`) always returns
the first-inserted item among those with the greatest `takenAt` timestamp
(formalised by `specFirstMax`), that item is a member of the queue with a
timestamp no smaller than any other, exactly one item is removed, and "empty"
is reported precisely when no items remain; enqueueing A(100), B(300), C(200)
and dequeueing three times yields B, then C, then A, then empty. -/
theorem dequeueNext_returns_latest :
    (∀ q : List Media, (dequeueNext q).1 = specFirstMax q)
  ∧ (∀ q : List Media, ((dequeueNext q).1 = none ↔ q = []))
  ∧ (∀ (q : List Media) (m : Media), (dequeueNext q).1 = some m →
      m ∈ q ∧ (∀ x ∈ q, x.takenAt ≤ m.takenAt) ∧ ((dequeueNext q).2).length + 1 = q.length)
  ∧ ([itemA, itemB, itemC].foldl queueItem [] = qABC
      ∧ dequeueNext qABC = (some itemB, [itemC, itemA])
      ∧ dequeueNext [itemC, itemA] = (some itemC, [itemA])
      ∧ dequeueNext [itemA] = (some itemA, [])
      ∧ dequeueNext ([] : List Media) = (none, [])) := by
  refine ⟨?_, ?_, ?_, by decide, by decide, by decide, by decide, by decide⟩
  · intro q
    rw [dequeueNext_fst, sortDesc_head]
  · intro q
    rw [dequeueNext_fst, sortDesc_head, specFirstMax_eq_none_iff]
  · intro q m h
    cases hs : sortDesc q with
    | nil =>
      rw [dequeueNext_fst, hs] at h
      cases h
    | cons y t =>
      have hq := dequeueNext_of_sortDesc q y t hs
      rw [hq] at h
      cases h
      have hmax : specFirstMax q = some m := by
        rw [← sortDesc_head, hs]; rfl
      obtain ⟨hmem, hle⟩ := specFirstMax_mem_le q m hmax
      refine ⟨hmem, hle, ?_⟩
      have hlen : (sortDesc q).length = q.length := (sortDesc_perm q).length_eq
      rw [hq, hs] at *
      simpa using hlen

/-- C1 witness: the maximality conjunct instantiated at the concrete
three-item queue. -/
theorem dequeueNext_returns_latest_witness :
    itemB ∈ qABC ∧ itemA.takenAt ≤ itemB.takenAt := by
  have h := dequeueNext_returns_latest.2.2.1 qABC itemB (by decide)
  exact ⟨h.1, h.2.1 itemA (by decide)⟩

/-- C2: starting from the empty queue, any sequence of `queueItem` calls
leaves the identifiers in the queue pairwise distinct; enqueueing an item
whose identifier is already present leaves the queue unchanged; and a single
`queueItem` call grows the queue by at most one element. -/
theorem queueItem_unique_ids :
    (∀ items : List Media, ((items.foldl queueItem []).map Media.id).Nodup)
  ∧ (∀ (q : List Media) (i : Media), (∃ j ∈ q, j.id = i.id) → queueItem q i = q)
  ∧ (∀ (q : List Media) (i : Media), (queueItem q i).length ≤ q.length + 1) := by
  refine ⟨?_, ?_, ?_⟩
  · intro items
    exact enqueueAll_nodup_ids items [] (by simp)
  · intro q i h
    obtain ⟨j, hj, hje⟩ := h
    have : q.any (fun x => decide (x.id = i.id)) = true :=
      List.any_eq_true.mpr ⟨j, hj, decide_eq_true hje⟩
    simp [queueItem, this]
  · intro q i
    rcases queueItem_cases q i with h | h <;> simp [h]

/-- C2 witness: enqueueing a second item with identifier "A" into a queue
already holding an item with identifier "A" leaves the queue unchanged. -/
theorem queueItem_unique_ids_witness : queueItem [itemA] itemAdup = [itemA] :=
  queueItem_unique_ids.2.1 [itemA] itemAdup ⟨itemA, by decide, by decide⟩

/-- C4: `queueItem` is a no-op for an item already liked or whose `adId` is
truthy (sponsored), leaving the queue and its size unchanged with no error;
a feed batch [X(liked), Y(sponsored), Z(organic)] enqueues only Z. -/
theorem queueItem_skips_engaged_sponsored :
    (∀ (q : List Media) (i : Media), i.liked = true ∨ i.isAd = true → queueItem q i = q)
  ∧ [itemX, itemY, itemZ].foldl queueItem [] = [itemZ] := by
  refine ⟨?_, by decide⟩
  intro q i h
  rcases h with h | h <;> simp [queueItem, h]

/-- C4 witness: enqueueing the already-liked item X into the empty queue
leaves it empty. -/
theorem queueItem_skips_engaged_sponsored_witness : queueItem [] itemX = [] :=
  queueItem_skips_engaged_sponsored.1 [] itemX (Or.inl (by decide))

/-- C8 counterexample: dequeuing from the queue [A(100), B(300), C(200)]
returns B but leaves the remainder re-sorted as [C, A]; the original queue
minus B is [A, C], so the stored order of the remaining items is not
preserved. -/
theorem dequeueNext_reorders_remainder :
    dequeueNext qABC = (some itemB, [itemC, itemA])
  ∧ qABC.erase itemB = [itemA, itemC]
  ∧ ([itemC, itemA] : List Media) ≠ [itemA, itemC] := by
  refine ⟨by decide, by decide, by decide⟩

/-- C8 (amended): `dequeueNext` removes exactly one occurrence of the returned
item — the remaining items form the multiset of the original queue minus that
item — but stores them re-sorted into descending-timestamp order (the sort is
in place); an empty queue is left entirely unchanged. -/
theorem dequeueNext_frame_amended :
    (∀ q : List Media, (dequeueNext q).1 = none → (dequeueNext q).2 = q)
  ∧ (∀ (q : List Media) (m : Media), (dequeueNext q).1 = some m →
      m ∈ q ∧ List.Perm ((dequeueNext q).2) (q.erase m)
        ∧ (dequeueNext q).2 = (sortDesc q).tail) := by
  constructor
  · intro q h
    rw [dequeueNext_fst] at h
    have hnil : sortDesc q = [] := by
      cases hs : sortDesc q
      · rfl
      · rw [hs] at h; cases h
    have hq : q = [] := (sortDesc_eq_nil_iff q).mp hnil
    subst hq
    rfl
  · intro q m h
    cases hs : sortDesc q with
    | nil =>
      rw [dequeueNext_fst, hs] at h
      cases h
    | cons y t =>
      have hq := dequeueNext_of_sortDesc q y t hs
      rw [hq] at h
      cases h
      have hperm : List.Perm (sortDesc q) q := sortDesc_perm q
      have hmem : m ∈ q := hperm.mem_iff.mp (by rw [hs]; exact List.mem_cons_self m t)
      have herase : List.Perm ((sortDesc q).erase m) (q.erase m) := hperm.erase m
      rw [hs, List.erase_cons_head] at herase
      exact ⟨hmem, by rw [hq]; exact herase, by simp [hq, hs]⟩

/-- C8 witness: the removal conjunct instantiated at the concrete three-item
queue. -/
theorem dequeueNext_frame_amended_witness :
    itemB ∈ qABC ∧ List.Perm ((dequeueNext qABC).2) (qABC.erase itemB) := by
  have h := dequeueNext_frame_amended.2 qABC itemB (by decide)
  exact ⟨h.1, h.2.1⟩

/-- C10: `queueItem` never modifies, reorders or removes the elements already
in the queue: every call either leaves the queue exactly unchanged or appends
the new item as the last element. -/
theorem queueItem_frame_preserving :
    ∀ (q : List Media) (i : Media), queueItem q i = q ∨ queueItem q i = q ++ [i] :=
  queueItem_cases

/-- C3: `n` consecutive `ratelimit` calls without an intervening reset leave
the `ratelimitTimeout` field (the current cooldown) equal to the starting
value times `RATELIMIT_MULT` to the `n`-th power; in particular, starting from
the base constant it is base times factor to the `n`, and starting from 1000ms
two calls leave 2250ms. -/
theorem ratelimit_exponential_growth :
    (∀ (n : ℕ) (b : ℚ), triggerN n b = b * RATELIMIT_MULT ^ n)
  ∧ (∀ n : ℕ, triggerN n RATELIMIT_TIMEOUT = RATELIMIT_TIMEOUT * RATELIMIT_MULT ^ n)
  ∧ triggerN 2 1000 = 2250 := by
  have key : ∀ (n : ℕ) (b : ℚ), triggerN n b = b * RATELIMIT_MULT ^ n := by
    intro n
    induction n with
    | zero => intro b; simp [triggerN]
    | succ k ih =>
      intro b
      rw [triggerN, Function.iterate_succ_apply',
        show (fun s => (ratelimit s).2)^[k] b = triggerN k b from rfl, ih]
      simp only [ratelimit]
      ring
  refine ⟨key, fun n => key n _, ?_⟩
  rw [key]
  norm_num [RATELIMIT_MULT]

/-- C7: `resetRatelimit` restores the cooldown field to exactly the base
constant regardless of the prior state, in particular after any number of
`ratelimit` calls; the base constant is 1000·60·30 ms. -/
theorem resetRatelimit_restores_base :
    (∀ s : ℚ, resetRatelimit s = RATELIMIT_TIMEOUT)
  ∧ (∀ (n : ℕ) (b : ℚ), resetRatelimit (triggerN n b) = RATELIMIT_TIMEOUT)
  ∧ RATELIMIT_TIMEOUT = 1000 * 60 * 30 :=
  ⟨fun _ => rfl, fun _ _ => rfl, rfl⟩

/-- C5 counterexample: on an empty comments list `randomComment` returns no
value (`undefined`) rather than failing, and `validateBotConfig` accepts a
configuration whose comments array is empty, so no ConfigValidationError
guards the empty list. -/
theorem randomComment_empty_no_error :
    randomComment [] (1 / 2) = none
  ∧ validateBotConfig cfgEmptyComments = Except.ok cfgEmptyComments := by
  constructor
  · rfl
  · rfl

/-- C5 (amended): over a single-element candidate list `randomComment` always
returns that element; over an empty list it returns no value (`undefined`)
without raising any error, and configuration validation accepts an empty
comments array (only non-arrays are rejected), so the empty list is not
guarded. -/
theorem randomComment_singleton_and_empty :
    (∀ (c : String) (r : ℚ), 0 ≤ r → r < 1 → randomComment [c] r = some c)
  ∧ (∀ r : ℚ, randomComment [] r = none)
  ∧ (∀ (n : ℕ) (u p : String), u.isEmpty = false → p.isEmpty = false →
      validateBotConfig ⟨.str u, .str p, .arr n, .undef, .undef⟩ =
        Except.ok ⟨.str u, .str p, .arr n, .undef, .undef⟩) := by
  refine ⟨?_, ?_, ?_⟩
  · intro c r h0 h1
    have hf : ⌊r⌋ = 0 := Int.floor_eq_zero_iff.mpr ⟨h0, h1⟩
    simp [randomComment, hf]
  · intro r
    simp [randomComment]
  · intro n u p hu hp
    simp [validateBotConfig, truthy, JSVal.isString, JSVal.isArray, hu, hp]

/-- C5 witness: the single-element conjunct instantiated at a concrete list
and random draw. -/
theorem randomComment_singleton_witness :
    randomComment ["nice"] (1 / 2) = some "nice" :=
  randomComment_singleton_and_empty.1 "nice" (1 / 2) (by norm_num) (by norm_num)

/-- C6 counterexample: with the default bounds (10s/30s) no random draw in
[0, 1) makes the post-like delay reach the upper endpoint 30·1000 ms — the
closed interval claim fails at its right endpoint. -/
theorem likeTimeout_max_unattainable :
    ¬ ∃ r : ℚ, 0 ≤ r ∧ r < 1 ∧ likeTimeout none none r = 30 * 1000 := by
  rintro ⟨r, h0, h1, he⟩
  have hv : likeTimeout none none r = 10000 + ⌊r * 20000⌋ := by
    norm_num [likeTimeout, rand, orDefault, MIN_LIKE_TIMEOUT, MAX_LIKE_TIMEOUT]
  rw [hv] at he
  have hf : (20000 : ℤ) ≤ ⌊r * 20000⌋ := by omega
  have hr : ((20000 : ℤ) : ℚ) ≤ r * 20000 := Int.le_floor.mp hf
  push_cast at hr
  nlinarith

/-- C6 (amended): for any configuration with resolved bounds `a < b` (in
milliseconds) the post-like delay `rand a b r` lies in the half-open integer
range [a, b-1] for every draw `r` in [0, 1): the lower endpoint is attained at
`r = 0`, the largest attainable value is `b - 1` (one millisecond below the
documented upper bound), and with the default 10s/30s bounds the delay lies in
[10000, 29999] ms. -/
theorem likeTimeout_bounds :
    (∀ (a b : ℤ) (r : ℚ), a < b → 0 ≤ r → r < 1 →
      a ≤ rand a b r ∧ rand a b r ≤ b - 1)
  ∧ (∀ a b : ℤ, rand a b 0 = a)
  ∧ (∀ r : ℚ, 0 ≤ r → r < 1 →
      10 * 1000 ≤ likeTimeout none none r ∧ likeTimeout none none r ≤ 30 * 1000 - 1)
  ∧ likeTimeout none none 0 = 10 * 1000
  ∧ likeTimeout none none (19999 / 20000) = 30 * 1000 - 1 := by
  have hbounds : ∀ (a b : ℤ) (r : ℚ), a < b → 0 ≤ r → r < 1 →
      a ≤ rand a b r ∧ rand a b r ≤ b - 1 := by
    intro a b r hab h0 h1
    have hba : (0 : ℚ) < (b : ℚ) - (a : ℚ) := by
      rw [sub_pos]
      exact_mod_cast hab
    constructor
    · have hnn : (0 : ℚ) ≤ r * ((b : ℚ) - (a : ℚ)) := mul_nonneg h0 hba.le
      have := Int.floor_nonneg.mpr hnn
      unfold rand
      omega
    · have hlt : r * ((b : ℚ) - (a : ℚ)) < ((b - a : ℤ) : ℚ) := by
        push_cast
        nlinarith
      have := Int.floor_lt.mpr hlt
      unfold rand
      omega
  have hdef : ∀ r : ℚ, likeTimeout none none r = rand (10 * 1000) (30 * 1000) r := by
    intro r; rfl
  refine ⟨hbounds, ?_, ?_, ?_, ?_⟩
  · intro a b
    simp [rand]
  · intro r h0 h1
    rw [hdef]
    exact hbounds (10 * 1000) (30 * 1000) r (by norm_num) h0 h1
  · rw [hdef]
    simp [rand]
  · rw [hdef]
    have hx : (19999 / 20000 : ℚ) * (((30 * 1000 : ℤ) : ℚ) - ((10 * 1000 : ℤ) : ℚ)) = 19999 := by
      norm_num
    rw [rand, hx]
    norm_num

/-- C6 witness: the default-bounds conjunct instantiated at the concrete draw
one half. -/
theorem likeTimeout_bounds_witness :
    10 * 1000 ≤ likeTimeout none none (1 / 2)
  ∧ likeTimeout none none (1 / 2) ≤ 30 * 1000 - 1 :=
  likeTimeout_bounds.2.2.1 (1 / 2) (by norm_num) (by norm_num)

lemma validateBotConfig_ok_conditions (c : BotConfigJS)
    (h : isError (validateBotConfig c) = false) :
    c.username.isString = true ∧ c.password.isString = true
    ∧ c.comments.isArray = true
    ∧ (truthy c.whitelist = true → c.whitelist.isArray = true)
    ∧ (truthy c.blacklist = true → c.blacklist.isArray = true) := by
  unfold validateBotConfig at h
  repeat' split at h
  all_goals simp_all [isError]
  refine ⟨?_, ?_⟩ <;> intro hx <;> by_contra hnx <;> simp_all

/-- C9 counterexample: the draft-variant validator accepts the configuration
whose username is the number 1 — a truthy non-string — because its check
rejects only values that are both non-strings and falsy; so constructing a
draft-variant Bot with a non-string username does not always throw. -/
theorem validateV1_accepts_nonstring_username :
    validateBotConfigV1 cfgNumUser = Except.ok cfgNumUser
  ∧ (JSVal.num 1).isString = false := by
  constructor
  · rfl
  · rfl

/-- C9 (amended): the final variant's `validateBotConfig` throws a TypeError,
before any network activity, whenever the username or password is not a
string, the comments field is not an array, or a truthy (present) whitelist or
blacklist is not an array; the draft variants reject a non-string username
only when it is also falsy. -/
theorem validateBotConfig_rejects_bad_types :
    (∀ c : BotConfigJS,
      (c.username.isString = false ∨ c.password.isString = false
        ∨ c.comments.isArray = false
        ∨ (truthy c.whitelist = true ∧ c.whitelist.isArray = false)
        ∨ (truthy c.blacklist = true ∧ c.blacklist.isArray = false)) →
      isError (validateBotConfig c) = true)
  ∧ (∀ c : BotConfigJS, c.username.isString = false → truthy c.username = false →
      isError (validateBotConfigV1 c) = true) := by
  constructor
  · intro c hdisj
    cases hE : isError (validateBotConfig c) with
    | true => rfl
    | false =>
      obtain ⟨h1, h2, h3, h4, h5⟩ := validateBotConfig_ok_conditions c hE
      rcases hdisj with h | h | h | ⟨ht, hf⟩ | ⟨ht, hf⟩ <;> simp_all
  · intro c hs ht
    have hcond : (!c.username.isString && !(truthy c.username)) = true := by
      simp [hs, ht]
    simp [validateBotConfigV1, hcond, isError]

/-- C9 witness: the final-variant validator rejects the concrete configuration
whose username is the number 1. -/
theorem validateBotConfig_rejects_bad_types_witness :
    isError (validateBotConfig cfgNumUser) = true :=
  validateBotConfig_rejects_bad_types.1 cfgNumUser (Or.inl (by decide))
